import Mathlib

/-!
Shallow embedding of the document-generation engine of the `doc_gen`
repository, together with proofs settling the frozen claims about it.

Monetary amounts are modelled as exact rationals (`ℚ`); the source's
`round(x, 2)` (Python's banker's rounding to two decimal places) is
modelled by `round2` below.  Dates are modelled as integers (day numbers);
subtracting a `timedelta(days = d)` is integer subtraction.

Embedded source files:
  * `src/expenses/process_expenses.py`    (C1, C6, C7, C9)
  * `src/withdrawals/process_withdrawals.py` (C2, C3, C8)
  * `src/legacy/payroll/process_employee_ytd.py` (C4, C5)
  * `src/checks/generate_check_data.py`   (C10)
-/

namespace DocGen

/-! ## Rounding to two decimal places (Python `round(x, 2)`) -/

/-- Round a rational to the nearest integer, ties to even
(Python's rounding mode). -/
def rndHalfEven (x : ℚ) : ℤ :=
  let f : ℤ := ⌊x⌋
  if x - f < 1/2 then f
  else if 1/2 < x - f then f + 1
  else if Even f then f else f + 1

/-- `round2 q` models Python's `round(q, 2)` on exact decimal values. -/
def round2 (q : ℚ) : ℚ := (rndHalfEven (100 * q) : ℚ) / 100

/-- A rational that is a whole number of cents. -/
def IsCent (q : ℚ) : Prop := ∃ z : ℤ, q = (z : ℚ) / 100

/-! ## Expense ledger records and derived documents
(`src/expenses/process_expenses.py`, `generate_documents_from_record`) -/

/-- An expense ledger record with all fields present, as read from
`data/expenses.json`.  The transaction date is a day number; monetary
amounts are exact decimals. -/
structure LedgerRecord where
  journalEntryId : String
  vendorName : String
  vendorId : String
  userId : String
  glAccountName : String
  glAccountCode : String
  approverId : String
  transactionDate : ℤ
  totalAmount : ℚ
  taxAmount : ℚ

/-- One line item of a derived document. -/
structure LineItem where
  description : String
  quantity : ℕ
  unitPrice : ℚ
  total : ℚ

/-- A derived document (purchase order, receiving report or invoice).
The faker-generated vendor/client address fields are outside the scope of
the claims and are not modelled. -/
structure Doc where
  docType : String
  documentId : String
  refId : Option String
  date : ℤ
  items : List LineItem
  subtotal : ℚ
  tax : ℚ
  grandTotal : ℚ
  notes : String

/-- `generate_documents_from_record` (lines 18-137): builds the PO, RR and
invoice from one ledger record.  `daysBeforePo` and `daysBeforeRr` are the
two values drawn by `random.randint(10, 20)` and `random.randint(2, 5)`;
they are passed in explicitly so the timeline claims can quantify over
the sampled range. -/
def generateDocumentsFromRecord (record : LedgerRecord)
    (daysBeforePo daysBeforeRr : ℤ) : Doc × Doc × Doc :=
  -- 2. Parse dates (the timeline)
  let invoiceDate := record.transactionDate
  let poDate := invoiceDate - daysBeforePo
  let rrDate := invoiceDate - daysBeforeRr
  -- 4. Create line items: Total - Tax = Net
  let totalAmount := record.totalAmount
  let taxAmount := record.taxAmount
  let netAmount := round2 (totalAmount - taxAmount)
  let items : List LineItem :=
    [{ description := record.glAccountName, quantity := 1,
       unitPrice := netAmount, total := netAmount }]
  let subtotal := netAmount
  -- 5. Document ids based on the journal id
  let baseId := (record.journalEntryId.take 8).toUpper
  let poId := "PO-" ++ baseId
  let rrId := "REC-" ++ baseId
  let invId := "INV-" ++ baseId
  -- 6. Purchase order
  let po : Doc :=
    { docType := "PURCHASE ORDER", documentId := poId, refId := none,
      date := poDate, items := items, subtotal := subtotal,
      tax := taxAmount, grandTotal := totalAmount,
      notes := "Authorized by " ++ record.approverId ++ ". GL: " ++
        record.glAccountCode }
  -- 7. Receiving report (its subtotal is the unrounded difference)
  let rr : Doc :=
    { docType := "RECEIVING REPORT", documentId := rrId, refId := some poId,
      date := rrDate, items := items, subtotal := totalAmount - taxAmount,
      tax := taxAmount, grandTotal := totalAmount,
      notes := "Received in full. Condition: Good." }
  -- 8. Invoice
  let inv : Doc :=
    { docType := "INVOICE", documentId := invId, refId := some poId,
      date := invoiceDate, items := items, subtotal := subtotal,
      tax := taxAmount, grandTotal := totalAmount,
      notes := "Payment Terms: Net 30. GL: " ++ record.glAccountCode }
  (po, rr, inv)

/-! ## Weighted allocation with last-bucket remainder
(`src/withdrawals/process_withdrawals.py`, lines 58-68) -/

/-- The allocation loop of `generate_401k_data`: every bucket except the
last gets `round(total * weight, 2)` and is added to the running sum; the
last bucket gets `round(total - running_total, 2)`. -/
def allocAmounts (total : ℚ) : List ℚ → ℚ → List ℚ
  | [], _ => []
  | [_w], running => [round2 (total - running)]
  | w :: w2 :: ws, running =>
      round2 (total * w) ::
        allocAmounts total (w2 :: ws) (running + round2 (total * w))

/-! ## Full-liquidation 401(k) statement data
(`src/withdrawals/process_withdrawals.py`, `generate_401k_data`) -/

/-- One row of the investment-funds table.  `gross` is the local variable
`gross_withdrawal` of the source (the bucket's entire balance); the output
field `withdrawals` stores `-abs(gross_withdrawal)`. -/
structure FundBucket where
  name : String
  begBal : ℚ
  deposits : ℚ
  gains : ℚ
  transfers : ℚ
  withdrawals : ℚ
  endBal : ℚ
  units : ℚ
  gross : ℚ

/-- One row of the funding-sources table.  `gross` is the bucket's share of
the current balance (`emp_share_amt` / `er_share_amt` in the source). -/
structure SourceBucket where
  name : String
  begBal : ℚ
  deposits : ℚ
  gains : ℚ
  withdrawals : ℚ
  endBal : ℚ
  pctVested : String
  vestedBal : ℚ
  gross : ℚ

/-- Builds one investment-fund row (lines 62-89).  The first assignment
`gain = round(share_bal * 0.05, 2)` is immediately overwritten by
`gain = round(share_bal - beg - dep, 2)`; only the final value is kept. -/
def mkFundBucket (name : String) (shareBal : ℚ) : FundBucket :=
  let beg := round2 (shareBal * (9/10))
  let dep := round2 (shareBal * (1/20))
  let gain := round2 (shareBal - beg - dep)
  { name := name, begBal := beg, deposits := dep, gains := gain,
    transfers := 0, withdrawals := -|shareBal|, endBal := 0, units := 0,
    gross := shareBal }

/-- The financial core of `generate_401k_data` (lines 37-143). -/
structure Account401k where
  priorYearBal : ℚ
  ytdContribEmp : ℚ
  ytdContribEr : ℚ
  gains : ℚ
  currentBal : ℚ
  investments : List FundBucket
  sources : List SourceBucket
  withdrawalFee : ℚ
  netPayout : ℚ

/-- Placeholder bucket used as the default of `List.headD` in concrete
statements about the sources table. -/
def noSource : SourceBucket :=
  { name := "", begBal := 0, deposits := 0, gains := 0, withdrawals := 0,
    endBal := 0, pctVested := "", vestedBal := 0, gross := 0 }

/-- The hard-coded fund weights (lines 52-57). -/
def fundNames : List String :=
  ["Vanguard Target Retirement 2050", "S&P 500 Index Fund",
   "International Growth Fund"]

def fundWeights : List ℚ := [6/10, 3/10, 1/10]

/-- The investment-funds table (lines 59-89): the allocation loop over the
three hard-coded funds followed by the per-bucket zero-out logic. -/
def mkInvestments (currentBal : ℚ) : List FundBucket :=
  (fundNames.zip (allocAmounts currentBal fundWeights 0)).map
    fun p => mkFundBucket p.1 p.2

/-- The funding-sources table (lines 116-143): the current balance is
split 66% / remainder between employee and employer, while beginning
balances and gains are split 66% / 34% of the prior-year balance and the
simulated gains, and deposits are the respective YTD contributions. -/
def mkSources (currentBal priorYearBal ytdContribEmp ytdContribEr
    gains : ℚ) : List SourceBucket :=
  let empShareAmt := round2 (currentBal * (66/100))
  let erShareAmt := round2 (currentBal - empShareAmt)
  [{ name := "Employee Deferral",
     begBal := round2 (priorYearBal * (66/100)),
     deposits := ytdContribEmp,
     gains := round2 (gains * (66/100)),
     withdrawals := -|empShareAmt|, endBal := 0,
     pctVested := "100%", vestedBal := 0, gross := empShareAmt },
   { name := "Employer Match",
     begBal := round2 (priorYearBal * (34/100)),
     deposits := ytdContribEr,
     gains := round2 (gains * (34/100)),
     withdrawals := -|erShareAmt|, endBal := 0,
     pctVested := "100%", vestedBal := 0, gross := erShareAmt }]

/-- `generate_401k_data`, monetary part.  `salary` and `contributionPct`
come from the employee record; `u1` (drawn from `uniform(0.5, 2.0)`) and
`u2` (drawn from `uniform(0.03, 0.08)`) are the two random factors of the
balance simulation, passed in explicitly. -/
def generate401kData (salary contributionPct u1 u2 : ℚ) : Account401k :=
  -- 2. Financial simulation
  let priorYearBal := round2 (salary * u1)
  let ytdContribEmp := round2 (salary * (contributionPct / 100) * (3/4))
  let ytdContribEr := round2 (ytdContribEmp * (1/2))
  let gains := round2 ((priorYearBal + ytdContribEmp) * u2)
  let currentBal :=
    round2 (priorYearBal + ytdContribEmp + ytdContribEr + gains)
  -- 5. Withdrawal and fee logic
  let withdrawalFee : ℚ := 50
  let netPayout := round2 (currentBal - withdrawalFee)
  { priorYearBal := priorYearBal, ytdContribEmp := ytdContribEmp,
    ytdContribEr := ytdContribEr, gains := gains, currentBal := currentBal,
    investments := mkInvestments currentBal,
    sources :=
      mkSources currentBal priorYearBal ytdContribEmp ytdContribEr gains,
    withdrawalFee := withdrawalFee, netPayout := netPayout }

/-! ## Deterministic seed derivation
(`src/expenses/process_expenses.py`, `get_deterministic_seed`):
`int(hashlib.sha256(key.encode('utf-8')).hexdigest(), 16) % 10**8`.
SHA-256 is embedded in full below over `ℕ` with explicit `% 2^32`. -/

/-- UTF-8 encoding of one character (the bytes `key.encode('utf-8')`
produces for it). -/
def charUtf8 (c : Char) : List ℕ :=
  let n := c.toNat
  if n < 0x80 then [n]
  else if n < 0x800 then
    [0xc0 ||| (n >>> 6), 0x80 ||| (n &&& 0x3f)]
  else if n < 0x10000 then
    [0xe0 ||| (n >>> 12), 0x80 ||| ((n >>> 6) &&& 0x3f),
     0x80 ||| (n &&& 0x3f)]
  else
    [0xf0 ||| (n >>> 18), 0x80 ||| ((n >>> 12) &&& 0x3f),
     0x80 ||| ((n >>> 6) &&& 0x3f), 0x80 ||| (n &&& 0x3f)]

/-- UTF-8 bytes of a string. -/
def strUtf8 (s : String) : List ℕ :=
  s.data.foldr (fun c acc => charUtf8 c ++ acc) []

/-- 32-bit right rotation. -/
def rotr32 (x n : ℕ) : ℕ :=
  ((x >>> n) ||| (x <<< (32 - n))) % 4294967296

def smallSigma0 (x : ℕ) : ℕ := rotr32 x 7 ^^^ rotr32 x 18 ^^^ (x >>> 3)

def smallSigma1 (x : ℕ) : ℕ := rotr32 x 17 ^^^ rotr32 x 19 ^^^ (x >>> 10)

def bigSigma0 (x : ℕ) : ℕ := rotr32 x 2 ^^^ rotr32 x 13 ^^^ rotr32 x 22

def bigSigma1 (x : ℕ) : ℕ := rotr32 x 6 ^^^ rotr32 x 11 ^^^ rotr32 x 25

/-- The 64 SHA-256 round constants (FIPS 180-4, written in decimal). -/
def sha256K : List ℕ :=
  [1116352408, 1899447441, 3049323471, 3921009573,
   961987163, 1508970993, 2453635748, 2870763221,
   3624381080, 310598401, 607225278, 1426881987,
   1925078388, 2162078206, 2614888103, 3248222580,
   3835390401, 4022224774, 264347078, 604807628,
   770255983, 1249150122, 1555081692, 1996064986,
   2554220882, 2821834349, 2952996808, 3210313671,
   3336571891, 3584528711, 113926993, 338241895,
   666307205, 773529912, 1294757372, 1396182291,
   1695183700, 1986661051, 2177026350, 2456956037,
   2730485921, 2820302411, 3259730800, 3345764771,
   3516065817, 3600352804, 4094571909, 275423344,
   430227734, 506948616, 659060556, 883997877,
   958139571, 1322822218, 1537002063, 1747873779,
   1955562222, 2024104815, 2227730452, 2361852424,
   2428436474, 2756734187, 3204031479, 3329325298]

/-- The eight 32-bit words of the running hash state. -/
structure Hash8 where
  a : ℕ
  b : ℕ
  c : ℕ
  d : ℕ
  e : ℕ
  f : ℕ
  g : ℕ
  h : ℕ

/-- The SHA-256 initial hash value (in decimal). -/
def sha256Init : Hash8 :=
  { a := 1779033703, b := 3144134277, c := 1013904242, d := 2773480762,
    e := 1359893119, f := 2600822924, g := 528734635, h := 1541459225 }

/-- The big-endian bytes of `n` on `cnt` bytes. -/
def beBytes (n cnt : ℕ) : List ℕ :=
  (List.range cnt).map fun i => (n >>> (8 * (cnt - 1 - i))) % 256

/-- SHA-256 padding: `0x80`, zeros up to 56 mod 64, then the bit length on
8 bytes. -/
def sha256Pad (msg : List ℕ) : List ℕ :=
  msg ++ 0x80 :: (List.replicate ((119 - msg.length % 64) % 64) 0 ++
    beBytes (8 * msg.length) 8)

/-- Big-endian 32-bit words from bytes. -/
def bytesToWords : List ℕ → List ℕ
  | b0 :: b1 :: b2 :: b3 :: rest =>
      (((b0 * 256 + b1) * 256 + b2) * 256 + b3) :: bytesToWords rest
  | _ => []

/-- Split a padded message into 64-byte blocks. -/
def toBlocks : List ℕ → List (List ℕ)
  | [] => []
  | b :: rest => ((b :: rest).take 64) :: toBlocks ((b :: rest).drop 64)
termination_by l => l.length
decreasing_by simp [List.length_drop]; omega

/-- Extend the 16-word message schedule by `n` further words. -/
def scheduleExtend (w : List ℕ) : ℕ → List ℕ
  | 0 => w
  | n + 1 =>
    let t := w.length
    let nw := (smallSigma1 (w.getD (t - 2) 0) + w.getD (t - 7) 0 +
      smallSigma0 (w.getD (t - 15) 0) + w.getD (t - 16) 0) % 4294967296
    scheduleExtend (w ++ [nw]) n

/-- One SHA-256 compression round. -/
def sha256Round (st : Hash8) (kw : ℕ × ℕ) : Hash8 :=
  let ch := (st.e &&& st.f) ^^^ ((st.e ^^^ 4294967295) &&& st.g)
  let t1 := (st.h + bigSigma1 st.e + ch + kw.1 + kw.2) % 4294967296
  let maj := (st.a &&& st.b) ^^^ (st.a &&& st.c) ^^^ (st.b &&& st.c)
  let t2 := (bigSigma0 st.a + maj) % 4294967296
  { a := (t1 + t2) % 4294967296, b := st.a, c := st.b, d := st.c,
    e := (st.d + t1) % 4294967296, f := st.e, g := st.f, h := st.g }

/-- Compress one 64-byte block into the hash state. -/
def sha256Block (st : Hash8) (block : List ℕ) : Hash8 :=
  let ws := scheduleExtend (bytesToWords block) 48
  let r := (sha256K.zip ws).foldl sha256Round st
  { a := (st.a + r.a) % 4294967296, b := (st.b + r.b) % 4294967296,
    c := (st.c + r.c) % 4294967296, d := (st.d + r.d) % 4294967296,
    e := (st.e + r.e) % 4294967296, f := (st.f + r.f) % 4294967296,
    g := (st.g + r.g) % 4294967296, h := (st.h + r.h) % 4294967296 }

/-- `int(hashlib.sha256(s.encode('utf-8')).hexdigest(), 16)`: the SHA-256
digest of `s` read as one big-endian number. -/
def sha256Nat (s : String) : ℕ :=
  let hf := (toBlocks (sha256Pad (strUtf8 s))).foldl sha256Block sha256Init
  ((((((hf.a * 4294967296 + hf.b) * 4294967296 + hf.c) * 4294967296 +
    hf.d) * 4294967296 + hf.e) * 4294967296 + hf.f) * 4294967296 +
    hf.g) * 4294967296 + hf.h

/-- `get_deterministic_seed` (lines 11-16). -/
def getDeterministicSeed (s : String) : ℕ := sha256Nat s % 10 ^ 8

/-- One record's documents as the processing loop produces them: the
global generator is reseeded with the record's seed at the top of
`generate_documents_from_record`, so the two `randint` draws are a
function `draws` of that seed alone. -/
def docsFromRecord (draws : ℕ → ℤ × ℤ) (record : LedgerRecord) :
    Doc × Doc × Doc :=
  let seed := getDeterministicSeed record.journalEntryId
  generateDocumentsFromRecord record (draws seed).1 (draws seed).2

/-- The batch loop of `process_ledger_file` (lines 149-159) on fully
populated records. -/
def processLedgerDocs (draws : ℕ → ℤ × ℤ)
    (records : List LedgerRecord) : List (Doc × Doc × Doc) :=
  records.map (docsFromRecord draws)

/-! ## Missing-field behaviour of document assembly
(`src/expenses/process_expenses.py`, dict accesses in
`generate_documents_from_record` and the loop of `process_ledger_file`) -/

/-- A raw ledger record as parsed from JSON: any field may be absent.
Only `Journal_Entry_ID` is ever read with a default
(`record.get("Journal_Entry_ID", "default")`, line 27, for the seed);
every other access is direct subscripting, which raises `KeyError` when
the key is absent.  (Line 88 reads `record["Journal_Entry_ID"]` directly,
so a missing journal id raises there despite the defaulted seed lookup.) -/
structure RawLedgerRecord where
  journalEntryId : Option String
  vendorName : Option String
  vendorId : Option String
  userId : Option String
  glAccountName : Option String
  glAccountCode : Option String
  approverId : Option String
  transactionDate : Option ℤ
  totalAmount : Option ℚ
  taxAmount : Option ℚ

/-- `generate_documents_from_record` on a raw record: each required field
is read in source order; the first absent one raises `KeyError` (modelled
as `Except.error`).  The `try/except ValueError` around the date parse
does not catch a `KeyError`, so a missing `Transaction_Date` raises
too. -/
def generateDocumentsE (record : RawLedgerRecord) (dpo drr : ℤ) :
    Except String (Doc × Doc × Doc) :=
  match record.transactionDate with
  | none => Except.error "KeyError: Transaction_Date"
  | some tdate =>
  match record.vendorName with
  | none => Except.error "KeyError: Vendor_Name"
  | some vname =>
  match record.vendorId with
  | none => Except.error "KeyError: Vendor_ID"
  | some vid =>
  match record.userId with
  | none => Except.error "KeyError: User_ID"
  | some uid =>
  match record.totalAmount with
  | none => Except.error "KeyError: Total_Amount"
  | some tot =>
  match record.taxAmount with
  | none => Except.error "KeyError: Tax_Amount"
  | some tax =>
  match record.glAccountName with
  | none => Except.error "KeyError: GL_Account_Name"
  | some gln =>
  match record.journalEntryId with
  | none => Except.error "KeyError: Journal_Entry_ID"
  | some jid =>
  match record.approverId with
  | none => Except.error "KeyError: Approver_ID"
  | some approver =>
  match record.glAccountCode with
  | none => Except.error "KeyError: GL_Account_Code"
  | some glc =>
  Except.ok (generateDocumentsFromRecord
    { journalEntryId := jid, vendorName := vname, vendorId := vid,
      userId := uid, glAccountName := gln, glAccountCode := glc,
      approverId := approver, transactionDate := tdate,
      totalAmount := tot, taxAmount := tax } dpo drr)

/-- The batch loop of `process_ledger_file` (lines 155-159): no
per-record exception handling, so the first raising record aborts the
whole batch. -/
def processLedgerFileE (dpo drr : ℤ) :
    List RawLedgerRecord → Except String (List (Doc × Doc × Doc))
  | [] => Except.ok []
  | r :: rs =>
    match generateDocumentsE r dpo drr with
    | Except.error e => Except.error e
    | Except.ok docs =>
      match processLedgerFileE dpo drr rs with
      | Except.error e => Except.error e
      | Except.ok ds => Except.ok (docs :: ds)

/-- A concrete record lacking `Vendor_Name`. -/
def badRecord : RawLedgerRecord :=
  { journalEntryId := some "J002", vendorName := none,
    vendorId := some "V-2", userId := some "U-2",
    glAccountName := some "Travel", glAccountCode := some "6200",
    approverId := some "A-7", transactionDate := some 20180,
    totalAmount := some 500, taxAmount := some 40 }

/-- A concrete record with every field present. -/
def goodRecord : RawLedgerRecord :=
  { journalEntryId := some "J003", vendorName := some "Acme Supplies",
    vendorId := some "V-3", userId := some "U-3",
    glAccountName := some "Office Supplies", glAccountCode := some "6100",
    approverId := some "A-8", transactionDate := some 20181,
    totalAmount := some 1200, taxAmount := some 100 }

/-! ## Checks from approved expenses
(`src/checks/generate_check_data.py`, `checks_from_expenses`) -/

/-- An expense record as read by `checks_from_expenses`; every field is
read with `.get`, so any may be absent. -/
structure ExpenseRecord where
  approvalStatus : Option String
  transactionDate : Option String
  vendorName : Option String
  totalAmount : Option ℚ
  journalEntryId : Option String
  glAccountName : Option String

/-- `raw_date.split("T")[0] if "T" in raw_date else raw_date`: the part of
the date string before the first `T`.  (`splitOn` returns `[raw]` when no
`T` occurs, so the head is `raw` itself in that case, exactly as the
source's else-branch.) -/
def datePart (raw : String) : String := (raw.splitOn "T").headD raw

/-- One generated check; the payer fields are the constant
`PAYER_INFO` merged into every check. -/
structure CheckDoc where
  checkNumber : String
  date : String
  payeeName : String
  amount : ℚ
  memo : String
  payerName : String
  payerAddress : String
  payerCityStateZip : String
  bankName : String
  bankLocation : String
  bankRouting : String
  accountNumber : String

/-- The check built for one approved expense (lines 62-78). -/
def checkFromExpense (num : ℕ) (e : ExpenseRecord) : CheckDoc :=
  { checkNumber := toString num,
    date := datePart (e.transactionDate.getD ""),
    payeeName := e.vendorName.getD "Unknown Vendor",
    amount := e.totalAmount.getD 0,
    memo := "Inv: " ++ (e.journalEntryId.getD "").take 8 ++ " - " ++
      e.glAccountName.getD "",
    payerName := "ACME CORPORATION",
    payerAddress := "123 Innovation Drive",
    payerCityStateZip := "Tech City, CA 94043",
    bankName := "SILICON VALLEY CREDIT UNION",
    bankLocation := "Palo Alto, CA",
    bankRouting := "122000218",
    accountNumber := "9988776655" }

/-- `exp.get("Approval_Status") == "Approved"`. -/
def isApproved (e : ExpenseRecord) : Bool :=
  e.approvalStatus == some "Approved"

/-- `checks_from_expenses` (lines 51-81): the counter starts at 10000 and
is incremented before each emitted check; non-approved records emit
nothing. -/
def checksFromExpenses : ℕ → List ExpenseRecord → List CheckDoc
  | _, [] => []
  | n, e :: es =>
    if isApproved e then
      checkFromExpense (n + 1) e :: checksFromExpenses (n + 1) es
    else checksFromExpenses n es

/-- Claim-side description for C10: one check per listed record, numbered
consecutively from `n` in input order. -/
def consecutiveChecks : ℕ → List ExpenseRecord → List CheckDoc
  | _, [] => []
  | n, e :: es => checkFromExpense n e :: consecutiveChecks (n + 1) es

/-! ## Employee YTD reports
(`src/legacy/payroll/process_employee_ytd.py`, `process_employee_ytd`) -/

/-- The eight tracked payroll metrics (the keys of `ytd_accumulators`). -/
inductive MetricKey where
  | grossPay
  | taxFed
  | taxState
  | taxFica
  | benefitDeduction
  | netPay
  | hoursReg
  | hoursOvertime
deriving DecidableEq

/-- One payroll-journal transaction of the target fiscal year, already
grouped under its employee.  `payDate` is a day number; `vals k` is the
numeric value `safe_round` reads for metric `k` (a non-numeric or missing
value reads as 0). -/
structure PayTrans where
  payDate : ℤ
  vals : MetricKey → ℚ

/-- One row of the generated earnings record: the per-period values and
the running YTD totals per metric, plus the accrual flag. -/
structure PayRow where
  payDate : ℤ
  isAccrual : Bool
  val : MetricKey → ℚ
  ytd : MetricKey → ℚ

/-- The all-zero initial YTD accumulators. -/
def zeroAcc : MetricKey → ℚ := fun _ => 0

/-- The running-total loop (lines 79-92): for each transaction, each
metric's value is `safe_round`ed, added into the accumulator with another
`safe_round`, and both the value and the new accumulator are stored on the
row.  Returns the rows together with the final accumulators. -/
def ytdProc (acc : MetricKey → ℚ) :
    List PayTrans → List PayRow × (MetricKey → ℚ)
  | [] => ([], acc)
  | t :: ts =>
      let v : MetricKey → ℚ := fun k => round2 (t.vals k)
      let acc2 : MetricKey → ℚ := fun k => round2 (acc k + v k)
      let rest := ytdProc acc2 ts
      ({ payDate := t.payDate, isAccrual := false, val := v,
         ytd := acc2 } :: rest.1, rest.2)

/-- The accrual row (lines 107-131): per metric, daily rate =
`safe_round(last value) / 14`, projected amount =
`safe_round(daily rate * days_remaining)`, folded into the accumulators.
Its pay date is December 31 of the target year. -/
def accrualRow (acc : MetricKey → ℚ) (lastT : PayTrans) (d : ℤ)
    (eoyDate : ℤ) : PayRow :=
  let amt : MetricKey → ℚ :=
    fun k => round2 (round2 (lastT.vals k) / 14 * (d : ℚ))
  { payDate := eoyDate, isAccrual := true, val := amt,
    ytd := fun k => round2 (acc k + amt k) }

/-- `transactions.sort(key=lambda x: x.get('Pay_Date', ''))`: a stable sort
by pay date (ISO date strings of one fiscal year compare like their day
numbers). -/
def sortByPayDate (ts : List PayTrans) : List PayTrans :=
  List.insertionSort (fun a b => a.payDate ≤ b.payDate) ts

instance : IsTotal PayTrans (fun a b => a.payDate ≤ b.payDate) :=
  ⟨fun a b => Int.le_total a.payDate b.payDate⟩

instance : IsTrans PayTrans (fun a b => a.payDate ≤ b.payDate) :=
  ⟨fun _ _ _ hab hbc => le_trans hab hbc⟩

/-- `process_employee_ytd`, one employee group (lines 66-133): sort the
transactions by pay date, accumulate running totals, and append the
accrual row exactly when `days_remaining = eoy - last pay date > 0`. -/
def processEmployeeGroup (eoyDate : ℤ) (ts : List PayTrans) : List PayRow :=
  let sorted := sortByPayDate ts
  let proc := ytdProc zeroAcc sorted
  match sorted.getLast? with
  | none => proc.1
  | some lastT =>
      let d := eoyDate - lastT.payDate
      if 0 < d then proc.1 ++ [accrualRow proc.2 lastT d eoyDate]
      else proc.1

end DocGen

namespace DocGen

/-! ## Theorems: rounding -/

theorem rndHalfEven_intCast (z : ℤ) : rndHalfEven (z : ℚ) = z := by
  unfold rndHalfEven
  simp [Int.floor_intCast]

theorem isCent_round2 (q : ℚ) : IsCent (round2 q) :=
  ⟨rndHalfEven (100 * q), rfl⟩

theorem IsCent.round2_eq {q : ℚ} (h : IsCent q) : round2 q = q := by
  obtain ⟨z, rfl⟩ := h
  unfold round2
  have h100 : (100 : ℚ) * ((z : ℚ) / 100) = (z : ℚ) := by ring
  rw [h100, rndHalfEven_intCast]

theorem isCent_intCast (z : ℤ) : IsCent (z : ℚ) :=
  ⟨100 * z, by push_cast; ring⟩

theorem isCent_zero : IsCent 0 := by
  simpa using isCent_intCast 0

theorem IsCent.add {a b : ℚ} (ha : IsCent a) (hb : IsCent b) :
    IsCent (a + b) := by
  obtain ⟨x, rfl⟩ := ha; obtain ⟨y, rfl⟩ := hb
  exact ⟨x + y, by push_cast; ring⟩

theorem IsCent.sub {a b : ℚ} (ha : IsCent a) (hb : IsCent b) :
    IsCent (a - b) := by
  obtain ⟨x, rfl⟩ := ha; obtain ⟨y, rfl⟩ := hb
  exact ⟨x - y, by push_cast; ring⟩

theorem IsCent.neg {a : ℚ} (ha : IsCent a) : IsCent (-a) := by
  obtain ⟨x, rfl⟩ := ha
  exact ⟨-x, by push_cast; ring⟩

theorem isCent_div100 (z : ℤ) : IsCent ((z : ℚ) / 100) := ⟨z, rfl⟩

/-! ## Theorems: the allocation loop -/

theorem allocAmounts_sum (total : ℚ) (hT : IsCent total) :
    ∀ (ws : List ℚ) (running : ℚ), ws ≠ [] → IsCent running →
      (allocAmounts total ws running).sum = total - running := by
  intro ws
  induction ws with
  | nil => intro running h _; exact absurd rfl h
  | cons w ws ih =>
    intro running _ hrun
    cases ws with
    | nil =>
      simp only [allocAmounts, List.sum_cons, List.sum_nil, add_zero]
      rw [(hT.sub hrun).round2_eq]
    | cons w2 ws2 =>
      have hrun2 : IsCent (running + round2 (total * w)) :=
        hrun.add (isCent_round2 _)
      have h2 := ih (running + round2 (total * w)) (by simp) hrun2
      simp only [allocAmounts, List.sum_cons, h2]
      ring

theorem isCent_of_mem_allocAmounts (total : ℚ) :
    ∀ (ws : List ℚ) (running x : ℚ),
      x ∈ allocAmounts total ws running → IsCent x := by
  intro ws
  induction ws with
  | nil => intro running x hx; simp [allocAmounts] at hx
  | cons w ws ih =>
    intro running x hx
    cases ws with
    | nil =>
      simp only [allocAmounts, List.mem_singleton] at hx
      exact hx ▸ isCent_round2 _
    | cons w2 ws2 =>
      simp only [allocAmounts, List.mem_cons] at hx
      rcases hx with h | h
      · exact h ▸ isCent_round2 _
      · exact ih _ x h

/-- C2: for every cent-valued anchor total (including negative totals and
zero) and every non-empty weight sequence summing to 1, the bucket amounts
produced by the last-bucket-takes-remainder loop of `generate_401k_data`
sum to the anchor total exactly. -/
theorem C2_allocation_sums_to_total (a : ℤ) (ws : List ℚ)
    (hne : ws ≠ []) (_hsum : ws.sum = 1) :
    (allocAmounts ((a : ℚ) / 100) ws 0).sum = (a : ℚ) / 100 := by
  have h := allocAmounts_sum ((a : ℚ) / 100) (isCent_div100 a) ws 0 hne
    isCent_zero
  simpa using h

/-- Witness for C2 at the source's own fund weights and the negative
anchor total `-12345.67`. -/
theorem C2_allocation_sums_to_total_witness :
    (allocAmounts (((-1234567 : ℤ) : ℚ) / 100) fundWeights 0).sum =
      ((-1234567 : ℤ) : ℚ) / 100 :=
  C2_allocation_sums_to_total (-1234567) fundWeights
    (by simp [fundWeights]) (by norm_num [fundWeights])

/-! ## Theorems: full liquidation (C3, C8) -/

theorem fundBucket_balances (n : String) {s : ℚ} (hs : IsCent s) :
    (mkFundBucket n s).endBal = 0 ∧
      (mkFundBucket n s).begBal + (mkFundBucket n s).deposits +
        (mkFundBucket n s).gains = (mkFundBucket n s).gross := by
  refine ⟨rfl, ?_⟩
  simp only [mkFundBucket]
  rw [((hs.sub (isCent_round2 _)).sub (isCent_round2 _)).round2_eq]
  ring

theorem allocAmounts_weights3 (t r : ℚ) (w1 w2 w3 : ℚ) :
    allocAmounts t [w1, w2, w3] r =
      [round2 (t * w1), round2 (t * w2),
       round2 (t - (r + round2 (t * w1) + round2 (t * w2)))] := by
  simp only [allocAmounts]

theorem mkInvestments_spec {Cq : ℚ} (hC : IsCent Cq) :
    (∀ b ∈ mkInvestments Cq,
        b.endBal = 0 ∧ b.begBal + b.deposits + b.gains = b.gross) ∧
      ((mkInvestments Cq).map FundBucket.gross).sum = Cq := by
  have hsum := allocAmounts_sum Cq hC fundWeights 0 (by simp [fundWeights])
    isCent_zero
  have hexp := allocAmounts_weights3 Cq 0 (6/10) (3/10) (1/10)
  have hw : fundWeights = [6/10, 3/10, 1/10] := rfl
  rw [hw, hexp] at hsum
  constructor
  · intro b hb
    simp only [mkInvestments, hw, hexp, fundNames, List.zip, List.zipWith,
      List.map, List.mem_cons, List.not_mem_nil, or_false] at hb
    rcases hb with rfl | rfl | rfl
    · exact fundBucket_balances _ (isCent_round2 _)
    · exact fundBucket_balances _ (isCent_round2 _)
    · exact fundBucket_balances _ (isCent_round2 _)
  · simp only [mkInvestments, hw, hexp, fundNames, List.zip, List.zipWith,
      List.map, List.sum_cons, List.sum_nil, mkFundBucket] at hsum ⊢
    linarith [hsum]

theorem mkSources_spec (Cq P E R G : ℚ) (hC : IsCent Cq) :
    (∀ b ∈ mkSources Cq P E R G, b.endBal = 0) ∧
      ((mkSources Cq P E R G).map SourceBucket.gross).sum = Cq := by
  constructor
  · intro b hb
    simp only [mkSources, List.mem_cons, List.not_mem_nil, or_false] at hb
    rcases hb with rfl | rfl <;> rfl
  · simp only [mkSources, List.map, List.sum_cons, List.sum_nil]
    rw [(hC.sub (isCent_round2 _)).round2_eq]
    ring

/-- C3 (amended): under full liquidation, every investment-fund bucket has
ending balance 0 and gross withdrawal equal to its beginning balance +
deposits + gains, the fund gross withdrawals sum to the current balance,
every funding-source bucket has ending balance 0, and the source gross
withdrawals sum to the current balance.  (The per-bucket identity
beginning + deposits + gains = withdrawal does NOT hold for the
funding-source buckets; see the counterexample.) -/
theorem C3_full_liquidation_amended (salary contributionPct u1 u2 : ℚ) :
    (∀ b ∈ (generate401kData salary contributionPct u1 u2).investments,
        b.endBal = 0 ∧ b.begBal + b.deposits + b.gains = b.gross) ∧
      (((generate401kData salary contributionPct u1 u2).investments.map
          FundBucket.gross).sum =
        (generate401kData salary contributionPct u1 u2).currentBal) ∧
      (∀ b ∈ (generate401kData salary contributionPct u1 u2).sources,
        b.endBal = 0) ∧
      (((generate401kData salary contributionPct u1 u2).sources.map
          SourceBucket.gross).sum =
        (generate401kData salary contributionPct u1 u2).currentBal) := by
  simp only [generate401kData]
  obtain ⟨hi1, hi2⟩ := mkInvestments_spec (isCent_round2
    (round2 (salary * u1) + round2 (salary * (contributionPct / 100) * (3/4)) +
      round2 (round2 (salary * (contributionPct / 100) * (3/4)) * (1/2)) +
      round2 ((round2 (salary * u1) +
        round2 (salary * (contributionPct / 100) * (3/4))) * u2)))
  obtain ⟨hs1, hs2⟩ := mkSources_spec _
    (round2 (salary * u1)) (round2 (salary * (contributionPct / 100) * (3/4)))
    (round2 (round2 (salary * (contributionPct / 100) * (3/4)) * (1/2)))
    (round2 ((round2 (salary * u1) +
      round2 (salary * (contributionPct / 100) * (3/4))) * u2))
    (isCent_round2 _)
  exact ⟨hi1, hi2, hs1, hs2⟩

/-- C3 counterexample: at salary 10000.00, contribution 10%, balance factor
1.0 and gain factor 0.04, the Employee Deferral funding-source bucket has
beginning balance + deposits + gains = 7633.80 but gross withdrawal
7626.30, so the per-bucket balance identity claimed for funding-source
buckets fails. -/
theorem C3_full_liquidation_counterexample :
    ((generate401kData 10000 10 1 (1/25)).sources.headD noSource).begBal +
        ((generate401kData 10000 10 1 (1/25)).sources.headD noSource).deposits +
        ((generate401kData 10000 10 1 (1/25)).sources.headD noSource).gains ≠
      ((generate401kData 10000 10 1 (1/25)).sources.headD noSource).gross := by
  norm_num [generate401kData, mkSources, round2, rndHalfEven]

/-- C8 (amended): the allocation loop applied to an empty weight sequence
silently returns the empty allocation, whose sum is 0 (the repository
defines no `InvalidAllocationError`; the model is a total function, exactly
as the source loop, which simply never executes its body). -/
theorem C8_empty_weights_amended (total running : ℚ) :
    allocAmounts total [] running = [] ∧
      (allocAmounts total [] running).sum = 0 :=
  ⟨rfl, rfl⟩

/-- C8 counterexample: with an empty weight sequence and anchor total
100.00 the loop returns the empty allocation, whose sum 0 is not the
anchor total — it does not fail. -/
theorem C8_empty_weights_counterexample :
    allocAmounts 100 [] 0 = [] ∧ (allocAmounts 100 [] 0).sum ≠ 100 := by
  refine ⟨rfl, ?_⟩
  norm_num [allocAmounts]

/-! ## Theorems: expense documents -/

/-- C1: for every ledger record whose gross and tax amounts are whole
numbers of cents, each of the three documents built by
`generate_documents_from_record` satisfies
`subtotal + tax = grand_total = gross`, and the three documents carry
identical subtotal/tax/grand-total triples. -/
theorem C1_documents_reconcile (record : LedgerRecord) (dpo drr : ℤ)
    (g t : ℤ) (hG : record.totalAmount = (g : ℚ) / 100)
    (hT : record.taxAmount = (t : ℚ) / 100) :
    let d := generateDocumentsFromRecord record dpo drr
    (d.1.subtotal + d.1.tax = d.1.grandTotal ∧
       d.1.grandTotal = record.totalAmount) ∧
    (d.2.1.subtotal + d.2.1.tax = d.2.1.grandTotal ∧
       d.2.1.grandTotal = record.totalAmount) ∧
    (d.2.2.subtotal + d.2.2.tax = d.2.2.grandTotal ∧
       d.2.2.grandTotal = record.totalAmount) ∧
    (d.1.subtotal = d.2.1.subtotal ∧ d.2.1.subtotal = d.2.2.subtotal) ∧
    (d.1.tax = d.2.1.tax ∧ d.2.1.tax = d.2.2.tax) ∧
    (d.1.grandTotal = d.2.1.grandTotal ∧
       d.2.1.grandTotal = d.2.2.grandTotal) := by
  have hc : IsCent (record.totalAmount - record.taxAmount) := by
    rw [hG, hT]; exact (isCent_div100 g).sub (isCent_div100 t)
  have hr : round2 (record.totalAmount - record.taxAmount) =
      record.totalAmount - record.taxAmount := hc.round2_eq
  simp only [generateDocumentsFromRecord, hr]
  refine ⟨⟨by ring, trivial⟩, ⟨by ring, trivial⟩, ⟨by ring, trivial⟩,
    ⟨trivial, trivial⟩, ⟨trivial, trivial⟩, ⟨trivial, trivial⟩⟩

/-- Witness for C1 at the spec's end-to-end example record
(gross 1200.00, tax 100.00). -/
theorem C1_documents_reconcile_witness :
    let record : LedgerRecord :=
      { journalEntryId := "J001", vendorName := "Acme Supplies",
        vendorId := "V-9", userId := "U-4",
        glAccountName := "Office Supplies", glAccountCode := "6100",
        approverId := "A-2", transactionDate := 20173,
        totalAmount := 1200, taxAmount := 100 }
    let d := generateDocumentsFromRecord record 15 3
    (d.1.subtotal + d.1.tax = d.1.grandTotal ∧
       d.1.grandTotal = record.totalAmount) ∧
    (d.2.1.subtotal + d.2.1.tax = d.2.1.grandTotal ∧
       d.2.1.grandTotal = record.totalAmount) ∧
    (d.2.2.subtotal + d.2.2.tax = d.2.2.grandTotal ∧
       d.2.2.grandTotal = record.totalAmount) ∧
    (d.1.subtotal = d.2.1.subtotal ∧ d.2.1.subtotal = d.2.2.subtotal) ∧
    (d.1.tax = d.2.1.tax ∧ d.2.1.tax = d.2.2.tax) ∧
    (d.1.grandTotal = d.2.1.grandTotal ∧
       d.2.1.grandTotal = d.2.2.grandTotal) :=
  C1_documents_reconcile _ 15 3 120000 10000 (by norm_num) (by norm_num)

/-- C9: whenever the purchase-order offset lies in the configured range
`[10, 20]` and the receiving-report offset lies in `[2, 5]`, the derived
dates satisfy PO date ≤ receiving-report date ≤ invoice (anchor) date. -/
theorem C9_timeline_ordered (record : LedgerRecord) (dpo drr : ℤ)
    (h1 : 10 ≤ dpo) (_h2 : dpo ≤ 20) (_h3 : 2 ≤ drr) (h4 : drr ≤ 5) :
    let d := generateDocumentsFromRecord record dpo drr
    d.1.date ≤ d.2.1.date ∧ d.2.1.date ≤ d.2.2.date := by
  simp only [generateDocumentsFromRecord]
  omega

/-! ## Theorems: deterministic seeding (C7) -/

/-- C7: seed derivation is a pure, total function of the business key —
the same key always yields the same integer, which lies below the fixed
modulus `10^8` — and, because the generator is reseeded from the record's
own key before each record's draws, the documents produced for the i-th
record of a batch depend only on that record (for any draw function
`draws` of the seed), not on the surrounding records or the processing
order. -/
theorem C7_seed_purity_and_isolation (draws : ℕ → ℤ × ℤ) (k : String)
    (records : List LedgerRecord) (i : ℕ) :
    getDeterministicSeed k = getDeterministicSeed k ∧
      getDeterministicSeed k < 10 ^ 8 ∧
      (processLedgerDocs draws records)[i]? =
        (records[i]?).map (docsFromRecord draws) := by
  refine ⟨rfl, Nat.mod_lt _ (by norm_num), ?_⟩
  simp [processLedgerDocs]

/-! ## Theorems: missing-field behaviour (C6) -/

theorem processLedgerFileE_error_of_mem :
    ∀ (l : List RawLedgerRecord) (dpo drr : ℤ) (r : RawLedgerRecord),
      r ∈ l → (∃ e, generateDocumentsE r dpo drr = Except.error e) →
        ∃ e, processLedgerFileE dpo drr l = Except.error e := by
  intro l
  induction l with
  | nil => intro dpo drr r hr; simp at hr
  | cons a l ih =>
    intro dpo drr r hr he
    obtain ⟨e, he⟩ := he
    rcases List.mem_cons.mp hr with rfl | hmem
    · exact ⟨e, by simp [processLedgerFileE, he]⟩
    · cases hga : generateDocumentsE a dpo drr with
      | error e2 => exact ⟨e2, by simp [processLedgerFileE, hga]⟩
      | ok docs =>
        obtain ⟨e2, he2⟩ := ih dpo drr r hmem ⟨e, he⟩
        exact ⟨e2, by simp [processLedgerFileE, hga, he2]⟩

/-- C6 (amended): a record lacking `Vendor_Name` makes document assembly
fail with a `KeyError` (no default is substituted; only the seed lookup of
`Journal_Entry_ID` has a default), and since the batch loop of
`process_ledger_file` has no per-record exception handling, any batch
containing such a record fails as a whole, with the remaining records left
unprocessed. -/
theorem C6_missing_field_amended (record : RawLedgerRecord)
    (dpo drr : ℤ) (hv : record.vendorName = none) :
    (∃ e, generateDocumentsE record dpo drr = Except.error e) ∧
      ∀ pre post : List RawLedgerRecord,
        ∃ e, processLedgerFileE dpo drr (pre ++ record :: post) =
          Except.error e := by
  have h1 : ∃ e, generateDocumentsE record dpo drr = Except.error e := by
    cases ht : record.transactionDate with
    | none =>
      exact ⟨"KeyError: Transaction_Date", by simp [generateDocumentsE, ht]⟩
    | some d =>
      exact ⟨"KeyError: Vendor_Name", by simp [generateDocumentsE, ht, hv]⟩
  refine ⟨h1, fun pre post => ?_⟩
  exact processLedgerFileE_error_of_mem _ dpo drr record (by simp) h1

/-- C6 counterexample: on a concrete record lacking `Vendor_Name`,
assembly raises `KeyError: Vendor_Name` instead of substituting a default
vendor name, and a batch holding that record and a following good record
aborts with that error, so the good record is not processed. -/
theorem C6_missing_field_counterexample :
    generateDocumentsE badRecord 15 3 =
        Except.error "KeyError: Vendor_Name" ∧
      processLedgerFileE 15 3 [badRecord, goodRecord] =
        Except.error "KeyError: Vendor_Name" :=
  ⟨rfl, rfl⟩

/-- Witness for C6's amended theorem at the concrete bad record. -/
theorem C6_missing_field_amended_witness :
    (∃ e, generateDocumentsE badRecord 15 3 = Except.error e) ∧
      ∀ pre post : List RawLedgerRecord,
        ∃ e, processLedgerFileE 15 3 (pre ++ badRecord :: post) =
          Except.error e :=
  C6_missing_field_amended badRecord 15 3 rfl

/-! ## Theorems: checks from approved expenses (C10) -/

theorem checksFromExpenses_shift :
    ∀ (es : List ExpenseRecord) (n : ℕ),
      checksFromExpenses n es =
        consecutiveChecks (n + 1) (es.filter isApproved) := by
  intro es
  induction es with
  | nil => intro n; rfl
  | cons e es ih =>
    intro n
    cases h : isApproved e with
    | true =>
      simp only [checksFromExpenses, if_pos h, List.filter_cons_of_pos h,
        consecutiveChecks, ih]
    | false =>
      simp only [checksFromExpenses, h, if_false, Bool.false_eq_true,
        List.filter_cons_of_neg, ih]
      rw [List.filter_cons_of_neg (by simp [h])]

/-- C10: `checks_from_expenses` emits exactly the checks of the approved
records, in input order, numbered consecutively starting at 10001, each
check carrying the record's total amount unchanged (0 when absent), the
vendor name ("Unknown Vendor" when absent), the date part of the
transaction date, and the memo built from journal id and GL account
name. -/
theorem C10_checks_from_approved_expenses (es : List ExpenseRecord) :
    checksFromExpenses 10000 es =
      consecutiveChecks 10001 (es.filter isApproved) :=
  checksFromExpenses_shift es 10000

/-! ## Theorems: employee YTD reports (C4, C5) -/

theorem ytdProc_not_accrual :
    ∀ (ts : List PayTrans) (acc : MetricKey → ℚ) (r : PayRow),
      r ∈ (ytdProc acc ts).1 → r.isAccrual = false := by
  intro ts
  induction ts with
  | nil => intro acc r hr; simp [ytdProc] at hr
  | cons t ts ih =>
    intro acc r hr
    simp only [ytdProc, List.mem_cons] at hr
    rcases hr with rfl | hr
    · rfl
    · exact ih _ r hr

theorem ytdProc_map_payDate :
    ∀ (ts : List PayTrans) (acc : MetricKey → ℚ),
      ((ytdProc acc ts).1).map PayRow.payDate = ts.map PayTrans.payDate := by
  intro ts
  induction ts with
  | nil => intro acc; rfl
  | cons t ts ih =>
    intro acc
    simp only [ytdProc, List.map_cons]
    rw [ih]

theorem ytdProc_val_isCent :
    ∀ (ts : List PayTrans) (acc : MetricKey → ℚ) (r : PayRow),
      r ∈ (ytdProc acc ts).1 → ∀ k, IsCent (r.val k) := by
  intro ts
  induction ts with
  | nil => intro acc r hr; simp [ytdProc] at hr
  | cons t ts ih =>
    intro acc r hr
    simp only [ytdProc, List.mem_cons] at hr
    rcases hr with rfl | hr
    · intro k; exact isCent_round2 _
    · exact ih _ r hr

theorem ytdProc_ytd_isCent :
    ∀ (ts : List PayTrans) (acc : MetricKey → ℚ) (r : PayRow),
      r ∈ (ytdProc acc ts).1 → ∀ k, IsCent (r.ytd k) := by
  intro ts
  induction ts with
  | nil => intro acc r hr; simp [ytdProc] at hr
  | cons t ts ih =>
    intro acc r hr
    simp only [ytdProc, List.mem_cons] at hr
    rcases hr with rfl | hr
    · intro k; exact isCent_round2 _
    · exact ih _ r hr

theorem ytdProc_snd_isCent :
    ∀ (ts : List PayTrans) (acc : MetricKey → ℚ),
      (∀ k, IsCent (acc k)) → ∀ k, IsCent ((ytdProc acc ts).2 k) := by
  intro ts
  induction ts with
  | nil => intro acc hacc k; exact hacc k
  | cons t ts ih =>
    intro acc hacc k
    simp only [ytdProc]
    exact ih _ (fun k2 => isCent_round2 _) k

theorem ytdProc_head :
    ∀ (ts : List PayTrans) (acc : MetricKey → ℚ) (r : PayRow),
      ((ytdProc acc ts).1).head? = some r →
        ∀ k, r.ytd k = round2 (acc k + r.val k) := by
  intro ts acc r hr
  cases ts with
  | nil => simp [ytdProc] at hr
  | cons t ts =>
    simp only [ytdProc, List.head?_cons, Option.some.injEq] at hr
    subst hr
    intro k
    rfl

theorem ytdProc_getLast_ytd :
    ∀ (ts : List PayTrans) (acc : MetricKey → ℚ) (r : PayRow),
      ((ytdProc acc ts).1).getLast? = some r →
        r.ytd = (ytdProc acc ts).2 := by
  intro ts
  induction ts with
  | nil => intro acc r hr; simp [ytdProc] at hr
  | cons t ts ih =>
    intro acc r hr
    cases ts with
    | nil =>
      simp only [ytdProc, List.getLast?_singleton, Option.some.injEq] at hr
      subst hr
      rfl
    | cons t2 ts2 =>
      simp only [ytdProc, List.getLast?_cons_cons] at hr ⊢
      exact ih _ r hr

theorem ytdProc_chain :
    ∀ (ts : List PayTrans) (acc : MetricKey → ℚ),
      List.Chain' (fun a b => ∀ k, b.ytd k = a.ytd k + b.val k)
        ((ytdProc acc ts).1) := by
  intro ts
  induction ts with
  | nil => intro acc; simp [ytdProc]
  | cons t ts ih =>
    intro acc
    simp only [ytdProc]
    refine List.chain'_cons'.mpr ⟨?_, ih _⟩
    intro y hy k
    have hytd := ytdProc_head ts _ y hy k
    have hcy : IsCent (y.val k) :=
      ytdProc_val_isCent ts _ y (List.mem_of_mem_head? hy) k
    have hca : IsCent (round2 (acc k + round2 ((t.vals) k))) :=
      isCent_round2 _
    rw [hytd, (hca.add hcy).round2_eq]

theorem ytdProc_countP_accrual (ts : List PayTrans) (acc : MetricKey → ℚ) :
    ((ytdProc acc ts).1).countP (fun r => r.isAccrual) = 0 := by
  refine List.countP_eq_zero.mpr ?_
  intro r hr
  simp [ytdProc_not_accrual ts acc r hr]

theorem getLast?_append_singleton {α : Type} (l : List α) (a : α) :
    (l ++ [a]).getLast? = some a := by
  induction l with
  | nil => rfl
  | cons x l ih =>
    cases l with
    | nil => rfl
    | cons y l2 => simpa using ih

/-- C4: for every employee group (transactions of one employee within the
target year, whose pay dates therefore do not exceed December 31), the
produced rows are ordered by pay date ascending, the first row's YTD total
equals its period value for every metric, and every later row's YTD total
equals the previous row's YTD total plus the row's period value, exactly
at cent precision. -/
theorem C4_ytd_running_totals (eoyDate : ℤ) (ts : List PayTrans)
    (hdates : ∀ t ∈ ts, t.payDate ≤ eoyDate) :
    let rows := processEmployeeGroup eoyDate ts
    List.Pairwise (fun a b : PayRow => a.payDate ≤ b.payDate) rows ∧
      (∀ r ∈ rows.head?, ∀ k, r.ytd k = r.val k) ∧
      List.Chain' (fun a b => ∀ k, b.ytd k = a.ytd k + b.val k) rows := by
  have hsorted : List.Sorted (fun a b : PayTrans => a.payDate ≤ b.payDate)
      (sortByPayDate ts) := List.sorted_insertionSort _ ts
  have hmemdate : ∀ t ∈ sortByPayDate ts, t.payDate ≤ eoyDate := by
    intro t ht
    exact hdates t ((List.perm_insertionSort _ ts).mem_iff.mp ht)
  have hbase_pw : List.Pairwise (fun a b : PayRow => a.payDate ≤ b.payDate)
      ((ytdProc zeroAcc (sortByPayDate ts)).1) := by
    have h1 : ((ytdProc zeroAcc (sortByPayDate ts)).1.map
        PayRow.payDate).Pairwise (· ≤ ·) := by
      rw [ytdProc_map_payDate]
      exact List.pairwise_map.mpr hsorted
    exact List.pairwise_map.mp h1
  have hbase_head : ∀ r ∈ ((ytdProc zeroAcc (sortByPayDate ts)).1).head?,
      ∀ k, r.ytd k = r.val k := by
    intro r hr k
    have h1 := ytdProc_head _ _ r hr k
    have h2 : IsCent (r.val k) :=
      ytdProc_val_isCent _ _ r (List.mem_of_mem_head? hr) k
    rw [h1]
    simp only [zeroAcc, zero_add]
    exact h2.round2_eq
  have hrow_date : ∀ r ∈ (ytdProc zeroAcc (sortByPayDate ts)).1,
      r.payDate ≤ eoyDate := by
    intro r hr
    have h1 : r.payDate ∈ ((ytdProc zeroAcc (sortByPayDate ts)).1).map
        PayRow.payDate := List.mem_map_of_mem _ hr
    rw [ytdProc_map_payDate] at h1
    obtain ⟨t, ht, h2⟩ := List.mem_map.mp h1
    exact h2 ▸ hmemdate t ht
  simp only [processEmployeeGroup]
  cases hlast : (sortByPayDate ts).getLast? with
  | none =>
    exact ⟨hbase_pw, hbase_head, ytdProc_chain _ _⟩
  | some lastT =>
    by_cases hd : 0 < eoyDate - lastT.payDate
    · simp only [if_pos hd]
      refine ⟨?_, ?_, ?_⟩
      · refine List.pairwise_append.mpr ⟨hbase_pw, List.pairwise_singleton _ _, ?_⟩
        intro a ha b hb
        simp only [List.mem_singleton] at hb
        subst hb
        exact hrow_date a ha
      · intro r hr k
        have hne : (ytdProc zeroAcc (sortByPayDate ts)).1 ≠ [] := by
          cases hts : sortByPayDate ts with
          | nil => rw [hts] at hlast; simp at hlast
          | cons t0 ts0 => simp [ytdProc]
        rw [List.head?_append_of_ne_nil _ hne] at hr
        exact hbase_head r hr k
      · refine List.chain'_append.mpr
          ⟨ytdProc_chain _ _, List.chain'_singleton _, ?_⟩
        intro x hx y hy k
        simp only [List.head?_cons, Option.mem_def, Option.some.injEq] at hy
        subst hy
        have hxy := ytdProc_getLast_ytd _ _ x (Option.mem_def.mp hx)
        have hcx : IsCent ((ytdProc zeroAcc (sortByPayDate ts)).2 k) :=
          ytdProc_snd_isCent _ _ (fun _ => isCent_zero) k
        have hcv : IsCent (round2 (round2 (lastT.vals k) / 14 *
            ((eoyDate - lastT.payDate : ℤ) : ℚ))) := isCent_round2 _
        show round2 ((ytdProc zeroAcc (sortByPayDate ts)).2 k + _) = _
        rw [(hcx.add hcv).round2_eq, hxy]
        rfl
    · simp only [if_neg hd]
      exact ⟨hbase_pw, hbase_head, ytdProc_chain _ _⟩

/-- Witness for C4: a two-transaction group given out of date order, with
year-end day 366. -/
theorem C4_ytd_running_totals_witness :
    let ts : List PayTrans :=
      [{ payDate := 350, vals := fun _ => 140 },
       { payDate := 336, vals := fun _ => 140 }]
    let rows := processEmployeeGroup 366 ts
    List.Pairwise (fun a b : PayRow => a.payDate ≤ b.payDate) rows ∧
      (∀ r ∈ rows.head?, ∀ k, r.ytd k = r.val k) ∧
      List.Chain' (fun a b => ∀ k, b.ytd k = a.ytd k + b.val k) rows :=
  C4_ytd_running_totals 366 _ (by
    intro t ht
    simp only [List.mem_cons, List.not_mem_nil, or_false] at ht
    rcases ht with rfl | rfl <;> norm_num)

/-- C5: for an employee with at least one transaction in the target year
(so the sorted group has a last transaction), an accrual row is appended
iff `days_remaining = eoy - last pay date > 0`; it is then the unique
accrual-flagged row, its per-metric amount is
`round((safe_round(last value) / 14) * days_remaining, 2)`, and it is
folded into the running YTD totals; when `days_remaining ≤ 0` the rows
are exactly the real pay-period rows and contain no accrual row at all. -/
theorem C5_accrual_projection (eoyDate : ℤ) (ts : List PayTrans)
    (lastT : PayTrans) (hlast : (sortByPayDate ts).getLast? = some lastT) :
    let rows := processEmployeeGroup eoyDate ts
    let base := (ytdProc zeroAcc (sortByPayDate ts)).1
    let d := eoyDate - lastT.payDate
    (0 < d →
      rows.countP (fun r => r.isAccrual) = 1 ∧
      ∀ r ∈ rows.getLast?,
        r.isAccrual = true ∧
        (∀ k, r.val k = round2 (round2 (lastT.vals k) / 14 * (d : ℚ))) ∧
        (∀ rp ∈ base.getLast?, ∀ k, r.ytd k = rp.ytd k + r.val k)) ∧
    (d ≤ 0 →
      rows = base ∧ rows.countP (fun r => r.isAccrual) = 0) := by
  simp only [processEmployeeGroup, hlast]
  constructor
  · intro hd
    simp only [if_pos hd]
    constructor
    · rw [List.countP_append, ytdProc_countP_accrual]
      rfl
    · intro r hr
      rw [getLast?_append_singleton] at hr
      simp only [Option.mem_def, Option.some.injEq] at hr
      subst hr
      refine ⟨rfl, fun k => rfl, ?_⟩
      intro rp hrp k
      have hxy := ytdProc_getLast_ytd _ _ rp (Option.mem_def.mp hrp)
      have hcx : IsCent ((ytdProc zeroAcc (sortByPayDate ts)).2 k) :=
        ytdProc_snd_isCent _ _ (fun _ => isCent_zero) k
      have hcv : IsCent (round2 (round2 (lastT.vals k) / 14 *
          ((eoyDate - lastT.payDate : ℤ) : ℚ))) := isCent_round2 _
      show round2 ((ytdProc zeroAcc (sortByPayDate ts)).2 k + _) = _
      rw [(hcx.add hcv).round2_eq, hxy]
      rfl
  · intro hd
    rw [if_neg (not_lt.mpr hd)]
    exact ⟨rfl, ytdProc_countP_accrual _ _⟩

/-- Witness for C5 at the spec's example: one transaction dated day 355
(2024-12-20), year end day 366 (2024-12-31), 11 days remaining, metric
value 140.00 per period. -/
theorem C5_accrual_projection_witness :
    let t0 : PayTrans := { payDate := 355, vals := fun _ => 140 }
    let ts : List PayTrans := [t0]
    let rows := processEmployeeGroup 366 ts
    let base := (ytdProc zeroAcc (sortByPayDate ts)).1
    let d : ℤ := 366 - t0.payDate
    (0 < d →
      rows.countP (fun r => r.isAccrual) = 1 ∧
      ∀ r ∈ rows.getLast?,
        r.isAccrual = true ∧
        (∀ k, r.val k = round2 (round2 (t0.vals k) / 14 * (d : ℚ))) ∧
        (∀ rp ∈ base.getLast?, ∀ k, r.ytd k = rp.ytd k + r.val k)) ∧
    (d ≤ 0 →
      rows = base ∧ rows.countP (fun r => r.isAccrual) = 0) :=
  C5_accrual_projection 366 _ _ rfl

/-- Witness for C9 at concrete offsets 15 and 3. -/
theorem C9_timeline_ordered_witness :
    let record : LedgerRecord :=
      { journalEntryId := "J001", vendorName := "Acme Supplies",
        vendorId := "V-9", userId := "U-4",
        glAccountName := "Office Supplies", glAccountCode := "6100",
        approverId := "A-2", transactionDate := 20173,
        totalAmount := 1200, taxAmount := 100 }
    let d := generateDocumentsFromRecord record 15 3
    d.1.date ≤ d.2.1.date ∧ d.2.1.date ≤ d.2.2.date :=
  C9_timeline_ordered _ 15 3 (by norm_num) (by norm_num) (by norm_num)
    (by norm_num)

end DocGen

